import Mathlib

/-!
Verification development for the `support-memory` repository: a shallow
embedding of its signal-extraction and shared-memory core (the Python
modules `transcript_processor.py`, `heartbeat.py`, `curated_parser.py`,
`shared_memory.py`, and the memory-writing fragment of
`slack_listener.py`), together with theorems settling the frozen claims
about that core.

Python strings are modelled as Lean `String` values operated on through
their `.data` character lists (Python `len`, slicing, `in`, `strip`,
`lower` are character-based, matching this representation).  Python
`re`-module matching is modelled by a small backtracking engine over a
regular-expression syntax tree; each pattern object below is a literal
transcription of the corresponding source pattern, noted in a comment.
External effects (Google-task creation, team-wellness logging) are
modelled as emitted call lists; the JSON memory file is modelled as an
explicit store value threaded through the operations.
-/

namespace SupportMemory

/-! ## Python string primitives -/

/-- Characters stripped by Python `str.strip()` and matched by `\s`. -/
def wsChars : List Char := [' ', '\t', '\n', '\r', '\x0b', '\x0c']

/-- ASCII lower-casing of one character, as Python `str.lower()` does for
ASCII input (all inputs exercised here are ASCII). -/
def lowerChar (c : Char) : Char :=
  if 'A' ≤ c ∧ c ≤ 'Z' then Char.ofNat (c.toNat + 32) else c

/-- Python `s.lower()`. -/
def pyLower (s : String) : String := ⟨s.data.map lowerChar⟩

/-- Python `s.strip()`: drop leading and trailing whitespace. -/
def pyStrip (s : String) : String :=
  ⟨((s.data.dropWhile (· ∈ wsChars)).reverse.dropWhile (· ∈ wsChars)).reverse⟩

/-- Whether `needle` occurs as a contiguous sublist of `hay`. -/
def subList (needle hay : List Char) : Bool :=
  (List.range (hay.length + 1)).any (fun i => needle.isPrefixOf (hay.drop i))

/-- Python `needle in hay` on strings (substring containment). -/
def pyIn (needle hay : String) : Bool := subList needle.data hay.data

/-- Python slice `s[:n]`. -/
def pyTake (n : Nat) (s : String) : String := ⟨s.data.take n⟩

/-- Python `sep.join(parts)`. -/
def pyJoin (sep : String) (parts : List String) : String :=
  ⟨(List.intercalate sep.data (parts.map String.data))⟩

/-- Python `int(s)` on a nonempty all-digit string. -/
def pyToNat (s : String) : Nat :=
  s.data.foldl (fun a c => a * 10 + (c.toNat - 48)) 0

/-- Python `lst[-n:]`: the trailing slice that implements bounded
retention of the memory lists (`mem['meetings'][-50:]` and friends). -/
def pyTailSlice (n : Nat) (l : List α) : List α := l.drop (l.length - n)

/-- Python `str(lst)` for a list of strings, e.g. `"['a', 'b']"`; used by
`get_customer_context` on `affected_customers` (quote-escaping inside the
elements is not exercised by any claim). -/
def pyReprStrList (l : List String) : String :=
  "[" ++ pyJoin ", " (l.map (fun s => "\x27" ++ s ++ "\x27")) ++ "]"

/-- Python `a or b or ...` over optional strings: first value that is
truthy (present and nonempty). -/
def pyOrChain : List (Option String) → Option String
  | [] => none
  | some s :: rest => if s = "" then pyOrChain rest else some s
  | none :: rest => pyOrChain rest

/-! ## A backtracking regular-expression engine

Character classes and regular expressions cover exactly the constructs
used by the source patterns.  `mrun` returns, in Python's backtracking
preference order, every way the expression can match starting at a given
position; taking the head of that list therefore yields the match Python
produces.  Fuel makes the recursion structural; callers supply enough
fuel for the inputs they evaluate. -/

inductive CharCls where
  /-- `.` — any character except a newline (no DOTALL flag is used). -/
  | any : CharCls
  /-- Explicit character alternatives, e.g. `[,:]`. -/
  | oneOf (cs : List Char) : CharCls
  /-- A contiguous range such as `[a-z]` or `\d`. -/
  | range (lo hi : Char) : CharCls
  deriving Repr

def CharCls.matches : CharCls → Char → Bool
  | .any, c => c ≠ '\n'
  | .oneOf cs, c => cs.contains c
  | .range lo hi, c => lo ≤ c ∧ c ≤ hi

inductive RE where
  | eps : RE
  | lit (c : Char) : RE
  | cls (k : CharCls) : RE
  | seq (a b : RE) : RE
  | alt (a b : RE) : RE
  /-- Greedy `a?`. -/
  | opt (a : RE) : RE
  /-- Greedy `a*`. -/
  | starG (a : RE) : RE
  /-- Lazy `a*?`. -/
  | starL (a : RE) : RE
  /-- Capture group number `n`. -/
  | grp (n : Nat) (a : RE) : RE
  /-- `^` with no MULTILINE flag: start of the string. -/
  | bos : RE
  /-- `$` with no MULTILINE flag: end of string, or just before a final
  newline. -/
  | eos : RE
  /-- `\b` word boundary. -/
  | wb : RE
  deriving Repr

/-- Literal string pattern. -/
def rstr (s : String) : RE := s.data.foldr (fun c r => RE.seq (RE.lit c) r) RE.eps

/-- Alternation over a list, associated to the right as in `(?:a|b|c)`. -/
def altL : List RE → RE
  | [] => RE.eps
  | [r] => r
  | r :: rs => RE.alt r (altL rs)

/-- Alternation of literal strings. -/
def altStrs (l : List String) : RE := altL (l.map rstr)

/-- A sequence of sub-patterns. -/
def seqL : List RE → RE
  | [] => RE.eps
  | [r] => r
  | r :: rs => RE.seq r (seqL rs)

/-- Greedy `a+`. -/
def plusG (a : RE) : RE := RE.seq a (RE.starG a)

/-- Lazy `a+?`. -/
def plusL (a : RE) : RE := RE.seq a (RE.starL a)

/-- `\s` as a character class. -/
def clsWs : RE := RE.cls (.oneOf wsChars)

/-- `\s+`. -/
def wsP : RE := plusG clsWs

/-- `\d`. -/
def clsD : RE := RE.cls (.range '0' '9')

/-- `\d{1,2}` (greedy, so two digits are preferred). -/
def d12 : RE := RE.seq clsD (RE.opt clsD)

/-- `(.+?)` — the lazy free-text capture used as group `n`. -/
def lazyCap (n : Nat) : RE := RE.grp n (plusL (RE.cls .any))

/-- Characters of `\w`, for word boundaries. -/
def isWordChar (c : Char) : Bool :=
  ('a' ≤ c ∧ c ≤ 'z') ∨ ('A' ≤ c ∧ c ≤ 'Z') ∨ ('0' ≤ c ∧ c ≤ '9') ∨ c = '_'

/-- One reported capture: group number, start offset, end offset. -/
abbrev GrpRec := Nat × Nat × Nat

/-- All ways `r` can match `text` starting at offset `i`, as
`(end-offset, captures)` pairs in backtracking preference order. -/
def mrun (text : List Char) : Nat → RE → Nat → List (Nat × List GrpRec)
  | 0, _, _ => []
  | _ + 1, .eps, i => [(i, [])]
  | _ + 1, .lit c, i =>
      match text.get? i with
      | some c2 => if c2 = c then [(i + 1, [])] else []
      | none => []
  | _ + 1, .cls k, i =>
      match text.get? i with
      | some c2 => if k.matches c2 then [(i + 1, [])] else []
      | none => []
  | fuel + 1, .seq a b, i =>
      (mrun text fuel a i).flatMap (fun p =>
        (mrun text fuel b p.1).map (fun q => (q.1, p.2 ++ q.2)))
  | fuel + 1, .alt a b, i => mrun text fuel a i ++ mrun text fuel b i
  | fuel + 1, .opt a, i => mrun text fuel a i ++ [(i, [])]
  | fuel + 1, .starG a, i =>
      ((mrun text fuel a i).flatMap (fun p =>
        if p.1 = i then []
        else (mrun text fuel (.starG a) p.1).map (fun q => (q.1, p.2 ++ q.2))))
      ++ [(i, [])]
  | fuel + 1, .starL a, i =>
      (i, []) ::
      (mrun text fuel a i).flatMap (fun p =>
        if p.1 = i then []
        else (mrun text fuel (.starL a) p.1).map (fun q => (q.1, p.2 ++ q.2)))
  | fuel + 1, .grp n a, i =>
      (mrun text fuel a i).map (fun p => (p.1, (n, i, p.1) :: p.2))
  | _ + 1, .bos, i => if i = 0 then [(i, [])] else []
  | _ + 1, .eos, i =>
      if i = text.length ∨ (i + 1 = text.length ∧ text.get? i = some '\n')
      then [(i, [])] else []
  | _ + 1, .wb, i =>
      let before := match i with
        | 0 => false
        | j + 1 => match text.get? j with
          | some c => isWordChar c
          | none => false
      let after := match text.get? i with
        | some c => isWordChar c
        | none => false
      if before ≠ after then [(i, [])] else []

/-- A match: start offset, end offset, reported captures. -/
structure RMatch where
  start : Nat
  stop : Nat
  groups : List GrpRec
  deriving Repr, DecidableEq

/-- Fuel that is ample for every pattern and input in this development. -/
def fuelFor (text : List Char) : Nat := 64 * (text.length + 4)

/-- Python `re.search`: the leftmost match, preferring the backtracking
order within one start offset. -/
def research (r : RE) (s : String) : Option RMatch :=
  let text := s.data
  (List.range (text.length + 1)).findSome? (fun i =>
    match mrun text (fuelFor text) r i with
    | [] => none
    | p :: _ => some ⟨i, p.1, p.2⟩)

/-- The text of capture group `n` of a match, if that group participated. -/
def matchGrp (s : String) (m : RMatch) (n : Nat) : Option String :=
  (m.groups.find? (fun g => g.1 = n)).map (fun g =>
    ⟨(s.data.drop g.2.1).take (g.2.2 - g.2.1)⟩)

/-- The text of the whole match (`match.group(0)`). -/
def matchGrp0 (s : String) (m : RMatch) : String :=
  ⟨(s.data.drop m.start).take (m.stop - m.start)⟩

/-- One step of `re.finditer`: search from offset `i` onward. -/
def researchFrom (r : RE) (s : String) (i : Nat) : Option RMatch :=
  let text := s.data
  ((List.range (text.length + 1 - i)).findSome? (fun d =>
    match mrun text (fuelFor text) r (i + d) with
    | [] => none
    | p :: _ => some (⟨i + d, p.1, p.2⟩ : RMatch)))

/-- Python `re.finditer`: successive non-overlapping matches, scanning
left to right; after an empty match the scan advances one position. -/
def refinditer (r : RE) (s : String) : List RMatch :=
  go (s.data.length + 1) 0
where
  go : Nat → Nat → List RMatch
    | 0, _ => []
    | steps + 1, i =>
      match researchFrom r s i with
      | none => []
      | some m => m :: go steps (if m.stop = m.start then m.stop + 1 else m.stop)

/-- Python `re.findall` for a single-group pattern: the list of group-1
texts of all matches. -/
def refindall1 (r : RE) (s : String) : List String :=
  (refinditer r s).filterMap (fun m => matchGrp s m 1)

end SupportMemory

namespace SupportMemory

/-! ## transcript_processor.py — signal patterns

Each definition below transcribes one regex literal from the `PATTERNS`
table of `transcript_processor.py` (the `customer_mention` and
`project_mention` pattern groups exist in that table but are never used
by `extract_signals`, which does substring scans instead, so they are not
transcribed).  The input text is lower-cased before matching, so the
IGNORECASE flag passed in the source has no additional effect. -/

/-- `(?:\.|$)`. -/
def endDot : RE := altL [RE.lit '.', RE.eos]

/-- `(?:\.|$|\?)`. -/
def endDotQ : RE := altL [RE.lit '.', RE.eos, RE.lit '?']

/-- `(?:\.|,|$)`. -/
def endDotComma : RE := altL [RE.lit '.', RE.lit ',', RE.eos]

/-- `[:\s]+`. -/
def colonWsP : RE := plusG (RE.cls (.oneOf (':' :: wsChars)))

/-- `[,:]?`. -/
def optCommaColon : RE := RE.opt (RE.cls (.oneOf [',', ':']))

/-- `(?:to\s+)?`. -/
def optToWs : RE := RE.opt (RE.seq (rstr "to") wsP)

/-- `(?:on\s+)?`. -/
def optOnWs : RE := RE.opt (RE.seq (rstr "on") wsP)

/-- The `action_for_me` patterns. -/
def actionForMePats : List RE := [
  -- r'lucas[,:]?\s+can you\s+(.+?)(?:\.|$|\?)'
  seqL [rstr "lucas", optCommaColon, wsP, rstr "can you", wsP, lazyCap 1, endDotQ],
  -- r'lucas[,:]?\s+(?:will you|could you|would you)\s+(.+?)(?:\.|$|\?)'
  seqL [rstr "lucas", optCommaColon, wsP, altStrs ["will you", "could you", "would you"],
    wsP, lazyCap 1, endDotQ],
  -- r'lucas[,:]?\s+(?:please|pls)\s+(.+?)(?:\.|$)'
  seqL [rstr "lucas", optCommaColon, wsP, altStrs ["please", "pls"], wsP, lazyCap 1, endDot],
  -- r'support\s+(?:needs to|should|will|to)\s+(.+?)(?:\.|$)'
  seqL [rstr "support", wsP, altStrs ["needs to", "should", "will", "to"], wsP,
    lazyCap 1, endDot],
  -- r'can\s+(?:lucas|support)\s+(.+?)(?:\.|$|\?)'
  seqL [rstr "can", wsP, altStrs ["lucas", "support"], wsP, lazyCap 1, endDotQ],
  -- r'(?:lucas|luke)[,:]?\s+(?:follow up|look into|check on|handle|take care of)\s+(.+?)(?:\.|$)'
  seqL [altStrs ["lucas", "luke"], optCommaColon, wsP,
    altStrs ["follow up", "look into", "check on", "handle", "take care of"],
    wsP, lazyCap 1, endDot],
  -- r'(?:assign(?:ed)?|task(?:ed)?)\s+(?:to\s+)?lucas[:\s]+(.+?)(?:\.|$)'
  seqL [altL [RE.seq (rstr "assign") (RE.opt (rstr "ed")),
      RE.seq (rstr "task") (RE.opt (rstr "ed"))],
    wsP, optToWs, rstr "lucas", colonWsP, lazyCap 1, endDot]]

/-- The `decision` patterns. -/
def decisionPats : List RE := [
  -- r"(?:we(?:'ve)?|let's)\s+decided?\s+(?:to\s+)?(.+?)(?:\.|$)"
  seqL [altL [RE.seq (rstr "we") (RE.opt (rstr "\x27ve")), rstr "let\x27s"],
    wsP, rstr "decide", RE.opt (RE.lit 'd'), wsP, optToWs, lazyCap 1, endDot],
  -- r"decision[:\s]+(.+?)(?:\.|$)"
  seqL [rstr "decision", colonWsP, lazyCap 1, endDot],
  -- r"(?:we're|we are)\s+going\s+(?:to|with)\s+(.+?)(?:\.|$)"
  seqL [altStrs ["we\x27re", "we are"], wsP, rstr "going", wsP, altStrs ["to", "with"],
    wsP, lazyCap 1, endDot],
  -- r"(?:final|agreed)[:\s]+(.+?)(?:\.|$)"
  seqL [altStrs ["final", "agreed"], colonWsP, lazyCap 1, endDot],
  -- r"(?:the plan is|plan is to)\s+(.+?)(?:\.|$)"
  seqL [altStrs ["the plan is", "plan is to"], wsP, lazyCap 1, endDot]]

/-- The `commitment` patterns. -/
def commitmentPats : List RE := [
  -- r"i(?:'ll| will)\s+(?:get|send|share|provide|follow up|check|look into)\s+(.+?)(?:\.|$)"
  seqL [RE.lit 'i', altStrs ["\x27ll", " will"], wsP,
    altStrs ["get", "send", "share", "provide", "follow up", "check", "look into"],
    wsP, lazyCap 1, endDot],
  -- r"i(?:'ll| will)\s+have\s+(?:that|this|it)\s+(.+?)(?:\.|$)"
  seqL [RE.lit 'i', altStrs ["\x27ll", " will"], wsP, rstr "have", wsP,
    altStrs ["that", "this", "it"], wsP, lazyCap 1, endDot],
  -- r"(?:i can|i'll)\s+(.+?)\s+by\s+(.+?)(?:\.|$)"
  seqL [altStrs ["i can", "i\x27ll"], wsP, lazyCap 1, wsP, rstr "by", wsP,
    RE.grp 2 (plusL (RE.cls .any)), endDot],
  -- r"let me\s+(.+?)(?:\.|$)"
  seqL [rstr "let me", wsP, lazyCap 1, endDot],
  -- r"i(?:'ll| will)\s+circle back\s+(?:on\s+)?(.+?)(?:\.|$)"
  seqL [RE.lit 'i', altStrs ["\x27ll", " will"], wsP, rstr "circle back", wsP,
    optOnWs, lazyCap 1, endDot]]

/-- The `follow_up` patterns. -/
def followUpPats : List RE := [
  -- r"(?:let's|we should|need to)\s+(?:circle back|follow up|revisit)\s+(?:on\s+)?(.+?)(?:\.|$)"
  seqL [altStrs ["let\x27s", "we should", "need to"], wsP,
    altStrs ["circle back", "follow up", "revisit"], wsP, optOnWs, lazyCap 1, endDot],
  -- r"(?:follow up|following up)\s+(?:on|about|with)\s+(.+?)(?:\.|$)"
  seqL [altStrs ["follow up", "following up"], wsP, altStrs ["on", "about", "with"],
    wsP, lazyCap 1, endDot],
  -- r"(?:don't forget|remember)\s+(?:to\s+)?(.+?)(?:\.|$)"
  seqL [altStrs ["don\x27t forget", "remember"], wsP, optToWs, lazyCap 1, endDot],
  -- r"(?:next steps?|action items?)[:\s]+(.+?)(?:\.|$)"
  seqL [altL [RE.seq (rstr "next step") (RE.opt (RE.lit 's')),
      RE.seq (rstr "action item") (RE.opt (RE.lit 's'))],
    colonWsP, lazyCap 1, endDot],
  -- r"(?:to do|todo)[:\s]+(.+?)(?:\.|$)"
  seqL [altStrs ["to do", "todo"], colonWsP, lazyCap 1, endDot]]

/-- The `deadline` patterns. -/
def deadlinePats : List RE := [
  -- r"by\s+(end of (?:day|week|month)|eod|eow|eom|friday|monday|tomorrow|next week)(?:\.|,|$)"
  seqL [rstr "by", wsP,
    RE.grp 1 (altL [RE.seq (rstr "end of ") (altStrs ["day", "week", "month"]),
      rstr "eod", rstr "eow", rstr "eom", rstr "friday", rstr "monday",
      rstr "tomorrow", rstr "next week"]),
    endDotComma],
  -- r"(?:due|deadline)[:\s]+(.+?)(?:\.|$)"
  seqL [altStrs ["due", "deadline"], colonWsP, lazyCap 1, endDot],
  -- r"(?:need|needs)\s+(?:to be|this)\s+(?:done|ready|completed)\s+by\s+(.+?)(?:\.|$)"
  seqL [altStrs ["need", "needs"], wsP, altStrs ["to be", "this"], wsP,
    altStrs ["done", "ready", "completed"], wsP, rstr "by", wsP, lazyCap 1, endDot],
  -- r"before\s+(launch|release|go[- ]live|the meeting|monday|friday)(?:\.|,|$)"
  seqL [rstr "before", wsP,
    RE.grp 1 (altL [rstr "launch", rstr "release",
      seqL [rstr "go", RE.cls (.oneOf ['-', ' ']), rstr "live"],
      rstr "the meeting", rstr "monday", rstr "friday"]),
    endDotComma]]

/-- The `blocker` patterns. -/
def blockerPats : List RE := [
  -- r"(?:blocked|waiting)\s+(?:on|for)\s+(.+?)(?:\.|$)"
  seqL [altStrs ["blocked", "waiting"], wsP, altStrs ["on", "for"], wsP, lazyCap 1, endDot],
  -- r"(?:can't|cannot)\s+(?:proceed|move forward|continue)\s+(?:until|without)\s+(.+?)(?:\.|$)"
  seqL [altStrs ["can\x27t", "cannot"], wsP, altStrs ["proceed", "move forward", "continue"],
    wsP, altStrs ["until", "without"], wsP, lazyCap 1, endDot],
  -- r"(?:dependency|dependencies)[:\s]+(.+?)(?:\.|$)"
  seqL [altStrs ["dependency", "dependencies"], colonWsP, lazyCap 1, endDot],
  -- r"(?:need|needs)\s+(.+?)\s+(?:first|before)(?:\.|$)"
  seqL [altStrs ["need", "needs"], wsP, lazyCap 1, wsP, altStrs ["first", "before"], endDot]]

/-- `PROJECT_KEYWORDS` from transcript_processor.py. -/
def PROJECT_KEYWORDS : List String := [
  "truetour", "embed", "integration", "api", "webhook",
  "beta", "pilot", "migration", "rollout", "launch",
  "dashboard", "reporting", "analytics", "automation"]

/-! ## transcript_processor.py — extract_signals -/

/-- The categorized output of `extract_signals` (a dict with these eight
fixed keys in the source: six action-related lists and two mention
lists). -/
structure SignalSet where
  actionsForMe : List String
  decisions : List String
  commitments : List String
  followUps : List String
  deadlines : List String
  blockers : List String
  customersMentioned : List String
  projectsMentioned : List String
  deriving Repr, DecidableEq

/-- The initial all-empty signal dict. -/
def emptySignals : SignalSet := ⟨[], [], [], [], [], [], [], []⟩

/-- One category loop of `extract_signals`: for each pattern, every
`finditer` match contributes `match.group(1).strip()` when it is truthy
and longer than 5 characters. -/
def catSignals (pats : List RE) (text : String) : List String :=
  pats.flatMap (fun p => (refinditer p text).filterMap (fun m =>
    match matchGrp text m 1 with
    | some raw =>
        let a := pyStrip raw
        if a ≠ "" ∧ 5 < a.length then some a else none
    | none => none))

/-- The deadline category loop: identical except that only truthiness
(`if deadline:`) is required — there is no length threshold. -/
def deadlineSignals (pats : List RE) (text : String) : List String :=
  pats.flatMap (fun p => (refinditer p text).filterMap (fun m =>
    match matchGrp text m 1 with
    | some raw =>
        let a := pyStrip raw
        if a ≠ "" then some a else none
    | none => none))

/-- Python `list(set(xs))`: the hash ordering of the result is
unspecified, so it is modelled by `List.dedup`; the claims concern only
membership and uniqueness. -/
def pySetList (l : List String) : List String := l.dedup

/-- `extract_signals(transcript, meeting_title='')` from
transcript_processor.py.  The transcript argument is `none` for Python
`None`; any other Python value is represented by the string `str()`
renders it to (which is what the source immediately coerces it to), so
`some ""` covers the remaining falsy shapes.  `knownCustomers` stands
for the customer keys loaded from the entities file by
`load_entities()`. -/
def extract_signals (transcript : Option String) (knownCustomers : List String) :
    SignalSet :=
  match transcript with
  | none => emptySignals
  | some t =>
    if t = "" then emptySignals
    else
      let text := pyLower t
      let known := knownCustomers.map pyLower
      { actionsForMe := pySetList (catSignals actionForMePats text)
        decisions := pySetList (catSignals decisionPats text)
        commitments := pySetList (catSignals commitmentPats text)
        followUps := pySetList (catSignals followUpPats text)
        deadlines := pySetList (deadlineSignals deadlinePats text)
        blockers := pySetList (catSignals blockerPats text)
        customersMentioned := pySetList (known.filter (fun c => pyIn c text))
        projectsMentioned := pySetList (PROJECT_KEYWORDS.filter (fun p => pyIn p text)) }

end SupportMemory

namespace SupportMemory

/-! ## A Gregorian calendar model for curated_parser.py

Python `datetime` values are modelled as calendar dates; the only
time-of-day fact the source relies on is that `today.replace(day=d)`
compares `< today` exactly when `d < today.day` (year, month and time
are unchanged by the replacement), which the model builds in. -/

structure Date where
  year : Nat
  month : Nat
  day : Nat
  deriving Repr, DecidableEq

def isLeapYear (y : Nat) : Bool := (y % 4 = 0 ∧ y % 100 ≠ 0) ∨ y % 400 = 0

def daysInMonth (y m : Nat) : Nat :=
  if m = 2 then (if isLeapYear y then 29 else 28)
  else if m = 4 ∨ m = 6 ∨ m = 9 ∨ m = 11 then 30
  else 31

def nextDay (d : Date) : Date :=
  if d.day < daysInMonth d.year d.month then ⟨d.year, d.month, d.day + 1⟩
  else if d.month < 12 then ⟨d.year, d.month + 1, 1⟩
  else ⟨d.year + 1, 1, 1⟩

/-- `today + timedelta(days=n)`. -/
def addDays (d : Date) (n : Nat) : Date := Nat.repeat nextDay n d

/-- Sakamoto's day-of-week table. -/
def sakamotoT : List Nat := [0, 3, 2, 5, 0, 3, 5, 1, 4, 6, 2, 4]

/-- Python `date.weekday()`: Monday is 0 and Sunday is 6, computed by
Sakamoto's congruence (which yields Sunday = 0, shifted here). -/
def pyWeekday (d : Date) : Nat :=
  let y := if d.month < 3 then d.year - 1 else d.year
  ((y + y / 4 - y / 100 + y / 400 + sakamotoT.getD (d.month - 1) 0 + d.day) % 7 + 6) % 7

/-- Zero-padding to `w` digits. -/
def padNum (w n : Nat) : String :=
  let s := toString n
  ⟨List.replicate (w - s.length) '0' ++ s.data⟩

/-- Python `strftime('%Y-%m-%d')`. -/
def fmtDate (d : Date) : String :=
  padNum 4 d.year ++ "-" ++ padNum 2 d.month ++ "-" ++ padNum 2 d.day

/-- `datetime.replace(...)` semantics: a repositioned date is only valid
when the day exists in the target month, otherwise ValueError. -/
def mkValidDate (y m day : Nat) : Option Date :=
  if 1 ≤ day ∧ day ≤ daysInMonth y m then some ⟨y, m, day⟩ else none

/-! ## curated_parser.py — date extraction -/

/-- Weekday names, in the order of the `weekdays` lists of
`_extract_date` and `_find_date_with_day`. -/
def weekdayNames : List String :=
  ["monday", "tuesday", "wednesday", "thursday", "friday", "saturday", "sunday"]

/-- The inline pattern of `_extract_date` rule 1:
`r'(monday|tuesday|wednesday|thursday|friday|saturday|sunday) the (\d{1,2})(?:st|nd|rd|th)?'`. -/
def reWeekdayThe : RE :=
  seqL [RE.grp 1 (altStrs weekdayNames), rstr " the ", RE.grp 2 d12,
    RE.opt (altStrs ["st", "nd", "rd", "th"])]

/-- The inline pattern of `_extract_date` rule 2:
`r'the (\d{1,2})(?:st|nd|rd|th)?'`. -/
def reTheDay : RE :=
  seqL [rstr "the ", RE.grp 1 d12, RE.opt (altStrs ["st", "nd", "rd", "th"])]

/-- `_find_date_with_day(day, weekday_name)` from curated_parser.py: scan
the next 60 days (offsets 0–59 from `today`) for the first date with the
given day-of-month and weekday. -/
def findDateWithDay (day : Nat) (weekdayName : String) (today : Date) : Option String :=
  let target := weekdayNames.indexOf (pyLower weekdayName)
  (List.range 60).findSome? (fun i =>
    let c := addDays today i
    if c.day = day ∧ pyWeekday c = target then some (fmtDate c) else none)

/-- The result of a date resolution: ISO date plus the matched text. -/
structure DateHit where
  date : String
  text : String
  deriving Repr, DecidableEq

/-- Rules 3–6 of `_extract_date`: bare weekday name (first name in list
order that occurs as a substring), then "tomorrow", "next week",
"this week". -/
def extractDateWeekdayOn (text : String) (today : Date) : Option DateHit :=
  match (List.range 7).findSome? (fun i =>
      if pyIn (weekdayNames.getD i "") text then some i else none) with
  | some i =>
      let wd := pyWeekday today
      -- days_ahead = i - today.weekday(); if days_ahead <= 0: days_ahead += 7
      let ahead := if i ≤ wd then i + 7 - wd else i - wd
      some ⟨fmtDate (addDays today ahead), weekdayNames.getD i ""⟩
  | none =>
      if pyIn "tomorrow" text then some ⟨fmtDate (addDays today 1), "tomorrow"⟩
      else if pyIn "next week" text then some ⟨fmtDate (addDays today 7), "next week"⟩
      else if pyIn "this week" text then
        -- days_until_friday = (4 - today.weekday()) % 7, Python modulo
        let dtf := (4 + 7 - pyWeekday today) % 7
        let dtf := if dtf = 0 then 7 else dtf
        some ⟨fmtDate (addDays today dtf), "this week"⟩
      else none

/-- Rules 2–6 of `_extract_date`: the bare "the N" rule (current month,
rolling to next month if the day has passed, a ValueError from either
`replace` falling through), then the weekday/relative rules. -/
def extractDateRest (text : String) (today : Date) : Option DateHit :=
  match research reTheDay text with
  | some m =>
      let day := pyToNat ((matchGrp text m 1).getD "")
      (match mkValidDate today.year today.month day with
       | some target =>
           if target.day < today.day then
             (match (if today.month = 12
                     then mkValidDate (today.year + 1) 1 day
                     else mkValidDate today.year (today.month + 1) day) with
              | some t2 => some ⟨fmtDate t2, matchGrp0 text m⟩
              | none => extractDateWeekdayOn text today)
           else some ⟨fmtDate target, matchGrp0 text m⟩
       | none => extractDateWeekdayOn text today)
  | none => extractDateWeekdayOn text today

/-- `_extract_date(text)` from curated_parser.py, with `datetime.now()`
made explicit as `today`.  Rule 1 ("Friday the 20th") resolves through
`_find_date_with_day`; when that scan fails the source does not return
but falls through to the remaining rules. -/
def extractDate (text : String) (today : Date) : Option DateHit :=
  match research reWeekdayThe text with
  | some m =>
      let wname := (matchGrp text m 1).getD ""
      let day := pyToNat ((matchGrp text m 2).getD "")
      (match findDateWithDay day wname today with
       | some ds => some ⟨ds, matchGrp0 text m⟩
       | none => extractDateRest text today)
  | none => extractDateRest text today

end SupportMemory

namespace SupportMemory

/-! ## heartbeat.py — capture parsing and processing -/

/-- Item classification of `parse_capture`. -/
inductive CapType where
  | note : CapType
  | task : CapType
  | idea : CapType
  deriving Repr, DecidableEq

/-- One parsed capture item (`{'raw', 'type', 'content', 'due_hint'?,
'google_task_id'?}`). -/
structure CapItem where
  raw : String
  ctype : CapType
  content : String
  dueHint : Option String
  googleTaskId : Option String
  deriving Repr, DecidableEq

/-- The split `re.split(r'\n|•|◦|▪|►|-(?=\s)', text)` of `parse_capture`,
hand-translated: the single-character separators are consumed, and a
hyphen separates only when followed (lookahead, unconsumed) by a
whitespace character. -/
def splitCapture (text : String) : List String :=
  go text.data [] |>.map (fun cs => (⟨cs.reverse⟩ : String))
where
  headIsWs : List Char → Bool
    | c2 :: _ => c2 ∈ wsChars
    | [] => false
  go : List Char → List Char → List (List Char)
    | [], acc => [acc]
    | c :: rest, acc =>
      if c = '\n' ∨ c = '•' ∨ c = '◦' ∨ c = '▪' ∨ c = '►' then
        acc :: go rest []
      else if c = '-' ∧ headIsWs rest then
        acc :: go rest []
      else go rest (c :: acc)

/-- The `task_patterns` of `parse_capture`. -/
def captureTaskPats : List RE := [
  -- r'^(todo|task|do|need to|must|should|follow up|schedule|call|email|send|review|check|update|create|build|fix|finish)[\s:]+'
  seqL [RE.bos,
    RE.grp 1 (altStrs ["todo", "task", "do", "need to", "must", "should", "follow up",
      "schedule", "call", "email", "send", "review", "check", "update", "create",
      "build", "fix", "finish"]),
    plusG (RE.cls (.oneOf (':' :: wsChars)))],
  -- r'(by|due|before|deadline)\s+(monday|tuesday|wednesday|thursday|friday|tomorrow|eod|eow|next week|\d{1,2}[-or-slash]\d{1,2})' with [-or-slash] the class of '/' and '-'
  seqL [RE.grp 1 (altStrs ["by", "due", "before", "deadline"]), wsP,
    RE.grp 2 (altL [rstr "monday", rstr "tuesday", rstr "wednesday", rstr "thursday",
      rstr "friday", rstr "tomorrow", rstr "eod", rstr "eow", rstr "next week",
      seqL [d12, RE.cls (.oneOf ['/', '-']), d12]])]]

/-- The `idea_patterns` of `parse_capture`:
`r'^(idea|maybe|could|what if|consider|explore|look into|research)'`. -/
def captureIdeaPats : List RE := [
  seqL [RE.bos,
    RE.grp 1 (altStrs ["idea", "maybe", "could", "what if", "consider", "explore",
      "look into", "research"])]]

/-- The due-hint pattern of `parse_capture`:
`r'(by|due|before)\s+(monday|tuesday|wednesday|thursday|friday|tomorrow|eod|eow|\d{1,2}[-or-slash]\d{1,2})'` with `[-or-slash]` the class of slash and hyphen. -/
def captureDuePat : RE :=
  seqL [RE.grp 1 (altStrs ["by", "due", "before"]), wsP,
    RE.grp 2 (altL [rstr "monday", rstr "tuesday", rstr "wednesday", rstr "thursday",
      rstr "friday", rstr "tomorrow", rstr "eod", rstr "eow",
      seqL [d12, RE.cls (.oneOf ['/', '-']), d12]])]

/-- The trigger lines `parse_capture` skips verbatim. -/
def captureTriggers : List String := ["capture:", "notes:", "brain dump:", "paper notes:"]

/-- The per-line body of `parse_capture`'s loop: `none` when the stripped
line is skipped (falsy, shorter than 3 characters, or a trigger line). -/
def captureLineItem (rawLine : String) : Option CapItem :=
  let line := pyStrip rawLine
  if line = "" ∨ line.length < 3 then none
  else if pyLower line ∈ captureTriggers then none
  else
    let lower := pyLower line
    let ty0 : CapType := if (captureTaskPats.any (fun p => (research p lower).isSome))
      then .task else .note
    let ty : CapType := if (captureIdeaPats.any (fun p => (research p lower).isSome))
      then .idea else ty0
    let due := (research captureDuePat lower).bind (fun m => matchGrp lower m 2)
    some ⟨line, ty, line, due, none⟩

/-- `parse_capture(text)` from heartbeat.py. -/
def parse_capture (text : String) : List CapItem :=
  (splitCapture text).filterMap captureLineItem

/-- One outbound `create_task` request. -/
structure TaskCall where
  title : String
  notes : String
  deriving Repr, DecidableEq

/-- One stored capture entry (`{'date', 'user', 'items'}`). -/
structure Capture where
  date : String
  user : String
  items : List CapItem
  deriving Repr, DecidableEq

/-- An inbox record (`{'type', 'from_meeting', 'date', 'content',
'status'}`). -/
structure InboxItem where
  itype : String
  fromMeeting : String
  date : String
  content : String
  status : String
  deriving Repr, DecidableEq

/-- A memory observation logged by slack_listener.py (fields irrelevant
to the claims are kept as plain strings/lists). -/
structure Observation where
  date : String
  time : String
  channel : String
  customers : List String
  projects : List String
  themes : List String
  deriving Repr, DecidableEq

/-- Per-person wellness signals of `extract_team_wellness`. -/
inductive Sentiment where
  | stressed : Sentiment
  | positive : Sentiment
  | neutral : Sentiment
  deriving Repr, DecidableEq

structure PersonSignals where
  stress : List String
  positive : List String
  blockers : List String
  sentiment : Sentiment
  deriving Repr, DecidableEq

/-- A stored meeting record built by `process_meeting`. -/
structure MeetingRecord where
  date : String
  time : String
  title : String
  meetingId : Option String
  durationMinutes : Nat
  attendees : List String
  signals : SignalSet
  summary : String
  hasActions : Bool
  teamWellness : Option (List (String × PersonSignals))
  deriving Repr, DecidableEq

/-- The shared memory document (`memory.json`): absent keys are modelled
as empty lists, matching the lazy `if key not in mem` initialisation in
the writers. -/
structure Mem where
  meetings : List MeetingRecord
  inbox : List InboxItem
  captures : List Capture
  observations : List Observation
  deriving Repr, DecidableEq

/-- The meetings write of `process_meeting` (transcript_processor.py
395–398): append the record, then `mem['meetings'] = mem['meetings'][-50:]`. -/
def meetingsWrite (l : List MeetingRecord) (r : MeetingRecord) : List MeetingRecord :=
  pyTailSlice 50 (l ++ [r])

/-- The captures write of `process_capture` (heartbeat.py 121–122):
append the entry, then `mem['captures'] = mem['captures'][-50:]`. -/
def capturesWrite (l : List Capture) (c : Capture) : List Capture :=
  pyTailSlice 50 (l ++ [c])

/-- The observations write of `update_memory` (slack_listener.py
214–217): append the observation, then
`mem["observations"] = mem["observations"][-100:]`. -/
def observationsWrite (l : List Observation) (o : Observation) : List Observation :=
  pyTailSlice 100 (l ++ [o])

/-- The inbox write of `process_meeting` (transcript_processor.py
418–449): append the surfaced batch, then
`mem['inbox'] = mem['inbox'][-100:]`. -/
def inboxWrite (l : List InboxItem) (batch : List InboxItem) : List InboxItem :=
  pyTailSlice 100 (l ++ batch)

/-- The result of `process_capture`: the Slack reply text, the saved
memory, and the attempted `create_task` calls in order. -/
structure PCResult where
  response : String
  mem : Mem
  taskCalls : List TaskCall
  deriving Repr, DecidableEq

/-- The item loop of `process_capture`: every task-typed item issues a
`create_task` call (the `Nat` argument numbers the calls and indexes the
outcome oracle); a truthy result attaches the returned id to the stored
item and counts towards `tasks_created`. -/
def captureLoop (createTaskOk : Nat → Option String) (nowDate : String) :
    Nat → List CapItem → (List CapItem × List TaskCall × Nat)
  | _, [] => ([], [], 0)
  | callIdx, item :: rest =>
    if item.ctype = .task then
      let result := createTaskOk callIdx
      let call : TaskCall :=
        ⟨pyTake 100 item.content, "Captured from paper notes on " ++ nowDate⟩
      let (ritems, rcalls, rcreated) := captureLoop createTaskOk nowDate (callIdx + 1) rest
      ({ item with googleTaskId := result } :: ritems, call :: rcalls,
        (if result.isSome then 1 else 0) + rcreated)
    else
      let (ritems, rcalls, rcreated) := captureLoop createTaskOk nowDate callIdx rest
      (item :: ritems, rcalls, rcreated)

/-- `process_capture(text, user_id)` from heartbeat.py.  `createTaskOk i`
is the Google-task id that the `i`-th `create_task` call returns (`none`
models a falsy result).  `nowIso` and `nowDate` stand for the two
`datetime.now()` renderings used in the body. -/
def process_capture (text user : String) (mem : Mem)
    (createTaskOk : Nat → Option String) (nowIso nowDate : String) : PCResult :=
  let items := parse_capture text
  if items.isEmpty then
    ⟨"Couldn\x27t parse any items from that. Try bullet points or one item per line.",
      mem, []⟩
  else
    let (storedItems, calls, tasksCreated) := captureLoop createTaskOk nowDate 0 items
    let ideasStored := (items.filter (fun it => it.ctype = .idea)).length
    let notesStored := (items.filter (fun it => it.ctype = .note)).length
    let entry : Capture := ⟨nowIso, user, storedItems⟩
    let mem2 := { mem with captures := capturesWrite mem.captures entry }
    let resp := "*Captured " ++ toString items.length ++ " items:*\n"
      ++ (if tasksCreated ≠ 0 then "• " ++ toString tasksCreated ++ " task(s) → Google Tasks\n" else "")
      ++ (if ideasStored ≠ 0 then "• " ++ toString ideasStored ++ " idea(s) → Memory\n" else "")
      ++ (if notesStored ≠ 0 then "• " ++ toString notesStored ++ " note(s) → Memory\n" else "")
    ⟨resp, mem2, calls⟩

end SupportMemory

namespace SupportMemory

/-! ## transcript_processor.py — team wellness -/

/-- `DIRECT_REPORTS` from transcript_processor.py. -/
def DIRECT_REPORTS : List (String × List String) := [
  ("christian", ["christian", "christian staley"]),
  ("hannah", ["hannah", "hannah holbrook"])]

/-- `STRESS_PATTERNS` from transcript_processor.py. -/
def STRESS_PATTERNS : List RE := [
  -- r'\b(overwhelmed|swamped|drowning|slammed|buried)\b'
  seqL [RE.wb, RE.grp 1 (altStrs ["overwhelmed", "swamped", "drowning", "slammed", "buried"]), RE.wb],
  -- r'\b(frustrated|annoying|annoyed|struggling)\b'
  seqL [RE.wb, RE.grp 1 (altStrs ["frustrated", "annoying", "annoyed", "struggling"]), RE.wb],
  -- r'\b(worried|concerned|anxious|stressed)\b'
  seqL [RE.wb, RE.grp 1 (altStrs ["worried", "concerned", "anxious", "stressed"]), RE.wb],
  -- r"\b(can't keep up|too much|falling behind|behind on)\b"
  seqL [RE.wb, RE.grp 1 (altStrs ["can\x27t keep up", "too much", "falling behind", "behind on"]), RE.wb],
  -- r'\b(exhausted|tired|burnt out|burning out)\b'
  seqL [RE.wb, RE.grp 1 (altStrs ["exhausted", "tired", "burnt out", "burning out"]), RE.wb]]

/-- `POSITIVE_PATTERNS` from transcript_processor.py. -/
def POSITIVE_PATTERNS : List RE := [
  -- r'\b(excited|looking forward|enjoying|proud)\b'
  seqL [RE.wb, RE.grp 1 (altStrs ["excited", "looking forward", "enjoying", "proud"]), RE.wb],
  -- r'\b(good progress|on track|ahead of|nailed|crushed)\b'
  seqL [RE.wb, RE.grp 1 (altStrs ["good progress", "on track", "ahead of", "nailed", "crushed"]), RE.wb],
  -- r'\b(feeling good|going well|things are good)\b'
  seqL [RE.wb, RE.grp 1 (altStrs ["feeling good", "going well", "things are good"]), RE.wb]]

/-- The inline `blocker_patterns` of `extract_team_wellness`. -/
def wellnessBlockerPats : List RE := [
  -- r"(?:i'm|i am) (?:blocked|waiting) on (.+?)(?:\.|$)"
  seqL [altStrs ["i\x27m", "i am"], RE.lit ' ', altStrs ["blocked", "waiting"],
    rstr " on ", lazyCap 1, endDot],
  -- r"(?:can't|cannot) (?:proceed|move forward) (?:until|without) (.+?)(?:\.|$)"
  seqL [altStrs ["can\x27t", "cannot"], RE.lit ' ', altStrs ["proceed", "move forward"],
    RE.lit ' ', altStrs ["until", "without"], RE.lit ' ', lazyCap 1, endDot]]

/-- `extract_team_wellness(transcript, attendees)` from
transcript_processor.py. -/
def extract_team_wellness (transcript : String) (attendees : List String) :
    List (String × PersonSignals) :=
  if transcript = "" then []
  else
    let text := pyLower transcript
    let att := attendees.map pyLower
    DIRECT_REPORTS.filterMap (fun pr =>
      let inMeeting := pr.2.any (fun n => att.contains n || pyIn n (pyTake 500 text))
      if inMeeting then
        let stress := STRESS_PATTERNS.flatMap (fun p => refindall1 p text)
        let positive := POSITIVE_PATTERNS.flatMap (fun p => refindall1 p text)
        let blockers := wellnessBlockerPats.flatMap (fun p =>
          (refinditer p text).filterMap (fun m =>
            (matchGrp text m 1).map (fun s => pyTake 100 (pyStrip s))))
        let sentiment : Sentiment :=
          if positive.length + 2 < stress.length then .stressed
          else if stress.length + 2 < positive.length then .positive
          else .neutral
        some (pr.1, ⟨stress, positive, blockers, sentiment⟩)
      else none)

/-- One emitted `log_team_update` call.  The `team_wellness` module
itself ships outside `src/`; its call is modelled as an emitted record
(when the import fails the source emits nothing at all, which only
strengthens the persistence-filter claims proved below). -/
structure LogCall where
  person : String
  updateType : String
  content : String
  mood : Nat
  deriving Repr, DecidableEq

/-- `log_team_wellness_from_meeting(team_signals, meeting_title)` from
transcript_processor.py, as the list of emitted `log_team_update`
calls. -/
def log_team_wellness_from_meeting (teamSignals : List (String × PersonSignals))
    (meetingTitle : String) : List LogCall :=
  teamSignals.filterMap (fun pr =>
    let s := pr.2
    if s.sentiment ≠ .neutral ∨ s.blockers ≠ [] then
      let parts := ["From: " ++ meetingTitle]
        ++ (if s.sentiment = .stressed then
              ["Seemed stressed (" ++ toString s.stress.length ++ " stress signals)"]
            else if s.sentiment = .positive then
              ["Seemed positive (" ++ toString s.positive.length ++ " positive signals)"]
            else [])
        ++ (match s.blockers with
            | [] => []
            | b :: _ => ["Blockers: " ++ b])
      let mood : Nat := if s.sentiment = .stressed then 2
        else if s.sentiment = .positive then 4 else 3
      some ⟨pr.1, "meeting", pyJoin " | " parts, mood⟩
    else none)

/-! ## transcript_processor.py — process_meeting -/

/-- A duck-typed transcript/summary field: a plain string, a list of
segments, or a nested object with optional `text`/`summary` entries and
a `str()` rendering. -/
inductive Doc where
  | dstr (s : String) : Doc
  | dlist (xs : List String) : Doc
  | ddict (text : Option String) (summaryF : Option String) (reprS : String) : Doc
  deriving Repr, DecidableEq

/-- The transcript normalisation of `process_meeting`: a list is joined
with spaces, a dict yields its `text` entry or its `str()` form. -/
def normalizeTranscript : Doc → String
  | .dstr s => s
  | .dlist xs => pyJoin " " xs
  | .ddict t _ r => t.getD r

/-- The summary normalisation of `process_meeting`: a dict yields
`text`, else `summary`, else its `str()` form. -/
def normalizeSummary : Doc → String
  | .dstr s => s
  | .dlist xs => pyJoin " " xs
  | .ddict t s r => t.getD (s.getD r)

/-- Assignee metadata of an external action item (`none` fields model
missing keys; `assignee.get('name') or ''` defaults them to empty). -/
structure Assignee where
  name : Option String
  email : Option String
  deriving Repr, DecidableEq

/-- One vendor-supplied action item: either a plain string or an object
with optional `text`/`content`/`description` and optional assignee (an
absent or empty assignee dict is `none`, matching `if assignee:`). -/
inductive FathomItem where
  | fstr (s : String) : FathomItem
  | fobj (text content description : Option String) (assignee : Option Assignee) : FathomItem
  deriving Repr, DecidableEq

/-- The self-identity name aliases of `process_meeting`. -/
def myNames : List String := ["lucas", "luke", "lucas willett", "lucaswillett"]

/-- The self-identity email fragments of `process_meeting`. -/
def myEmails : List String := ["lucas@visitingmedia.com", "lucas.willett@"]

/-- The per-item body of the `fathom_actions` loop of `process_meeting`:
the follow-up text this item contributes, if any.  A plain string longer
than 10 characters is treated as the user's own; an object is the user's
own only when an assignee is present whose name or email contains a
self-identity fragment (an object without assignee metadata sets
`is_mine = False` and is skipped).  The final filter drops short, long
or noise-marked texts. -/
def fathomItemText (item : FathomItem) : Option String :=
  let p : Option String × Bool :=
    match item with
    | .fstr s => if 10 < s.length then (some s, true) else (none, false)
    | .fobj t c d asg =>
        let actionText := pyOrChain [t, c, d]
        let isMine := match asg with
          | some a =>
              let an := pyLower (a.name.getD "")
              let ae := pyLower (a.email.getD "")
              myNames.any (fun n => pyIn n an) || myEmails.any (fun e => pyIn e ae)
          | none => false
        (actionText, isMine)
  match p.1 with
  | some a =>
      if p.2 ∧ 10 < a.length ∧ a.length < 500
          ∧ ¬ pyIn "\x7b" a ∧ ¬ pyIn "speaker" (pyLower a)
      then some (pyStrip a) else none
  | none => none

/-- Input of `process_meeting` (the Fathom webhook payload fields the
function reads; `none` models an absent key). -/
structure MeetingData where
  title : Option String
  transcript : Doc
  summary : Doc
  actionItems : List FathomItem
  attendees : List String
  durationSeconds : Nat
  meetingId : Option String
  deriving Repr, DecidableEq

/-- Python `round(seconds / 60)` with exact rational half-to-even
rounding (binary-float representation error cannot change the result for
the durations exercised here). -/
def pyRoundDiv60 (n : Nat) : Nat :=
  let q := n / 60
  let r := n % 60
  if 2 * r < 60 then q
  else if 2 * r > 60 then q + 1
  else if q % 2 = 0 then q else q + 1

/-- The calls attempted by the `create_task` loop before the single
`except` around the whole block stops it: every call up to and including
the first failing one. -/
def attemptCalls (fails : Nat → Bool) : Nat → List TaskCall → List TaskCall
  | _, [] => []
  | i, c :: cs => if fails i then [c] else c :: attemptCalls fails (i + 1) cs

/-- The result of `process_meeting`: the returned record, the saved
memory, the attempted `create_task` calls, and the emitted wellness log
calls. -/
structure PMResult where
  record : MeetingRecord
  mem : Mem
  taskCalls : List TaskCall
  wellnessLogs : List LogCall
  deriving Repr, DecidableEq

/-- The full list of `create_task` requests `process_meeting` builds:
one per action/follow-up, then one per deadline. -/
def intendedTaskCalls (signals : SignalSet) (title nowDate : String) : List TaskCall :=
  (signals.actionsForMe ++ signals.followUps).map (fun a =>
    ⟨pyTake 500 a, "From meeting: " ++ title ++ " (" ++ nowDate ++ ")"⟩)
  ++ signals.deadlines.map (fun d =>
    ⟨pyTake 500 d, "Deadline from: " ++ title ++ " (" ++ nowDate ++ ")"⟩)

/-- `process_meeting(meeting_data)` from transcript_processor.py.
Signals start empty and only vendor action items feed `follow_ups`
(`extract_signals` is not called).  `taskFails i` says whether the
`i`-th `create_task` call raises; the single `try` around the whole loop
means the first failure abandons the remaining calls, while the record
append, inbox append and save are unconditional. -/
def process_meeting (md : MeetingData) (mem : Mem) (taskFails : Nat → Bool)
    (nowDate nowTime : String) : PMResult :=
  let title := md.title.getD "Untitled Meeting"
  let transcript := normalizeTranscript md.transcript
  let summary := normalizeSummary md.summary
  let followUps := md.actionItems.filterMap fathomItemText
  let signals : SignalSet := { emptySignals with followUps := followUps }
  let teamSignals := extract_team_wellness transcript md.attendees
  let record : MeetingRecord :=
    { date := nowDate
      time := nowTime
      title := title
      meetingId := md.meetingId
      durationMinutes := pyRoundDiv60 md.durationSeconds
      attendees := md.attendees
      signals := signals
      summary := if summary = "" then "" else pyTake 500 summary
      hasActions := !signals.actionsForMe.isEmpty || !signals.followUps.isEmpty
      teamWellness := if teamSignals.isEmpty then none else some teamSignals }
  let wellnessLogs :=
    if teamSignals.isEmpty then []
    else log_team_wellness_from_meeting teamSignals title
  let mem1 := { mem with meetings := meetingsWrite mem.meetings record }
  let taskCalls := attemptCalls taskFails 0 (intendedTaskCalls signals title nowDate)
  let anySurfaced := !signals.actionsForMe.isEmpty || !signals.followUps.isEmpty
    || !signals.deadlines.isEmpty || !signals.blockers.isEmpty
  let newInbox :=
    signals.actionsForMe.map (fun a =>
      (⟨"action", title, nowDate, a, "open"⟩ : InboxItem))
    ++ signals.followUps.map (fun a =>
      (⟨"action", title, nowDate, a, "open"⟩ : InboxItem))
    ++ signals.deadlines.map (fun d =>
      (⟨"deadline", title, nowDate, d, "open"⟩ : InboxItem))
  -- the inbox append/trim runs only when any signal list is nonempty
  -- (the conditional is written on the field; the other fields are
  -- unchanged either way, so this is the same store)
  let mem2 :=
    { mem1 with inbox := if anySurfaced then inboxWrite mem1.inbox newInbox
                         else mem1.inbox }
  ⟨record, mem2, taskCalls, wellnessLogs⟩

end SupportMemory

namespace SupportMemory

/-! ## shared_memory.py — customer context lookup -/

/-- An entity-store customer record (`cust.get("name", "")`; other
free-form attributes are irrelevant to the lookup). -/
structure Customer where
  name : String
  deriving Repr, DecidableEq

/-- An incident record from the memory document. -/
structure Incident where
  id : String
  summary : String
  affectedCustomers : List String
  deriving Repr, DecidableEq

/-- A customer-pattern record from the memory document
(`pat.get("customer", "")`). -/
structure CustomerPattern where
  customer : String
  notes : String
  deriving Repr, DecidableEq

/-- The entities document: insertion-ordered customer-id/record pairs. -/
structure EntStore where
  customers : List (String × Customer)
  deriving Repr, DecidableEq

/-- The memory fields `get_customer_context` reads. -/
structure MemCtx where
  incidents : List Incident
  customerPatterns : List CustomerPattern
  deriving Repr, DecidableEq

/-- The result of `get_customer_context`. -/
structure CustomerContext where
  entity : Option Customer
  incidents : List Incident
  patterns : List CustomerPattern
  deriving Repr, DecidableEq

/-- `get_customer_context(customer_name)` from shared_memory.py: the
first entity whose name contains the lower-cased fragment, every
incident whose `str(affected_customers)` contains it, and every pattern
whose `customer` field contains it (all lower-cased substring tests). -/
def get_customer_context (customerName : String) (mem : MemCtx) (ent : EntStore) :
    CustomerContext :=
  { entity := (ent.customers.find? (fun pr =>
      pyIn (pyLower customerName) (pyLower pr.2.name))).map (fun pr => pr.2)
    incidents := mem.incidents.filter (fun inc =>
      pyIn (pyLower customerName) (pyLower (pyReprStrList inc.affectedCustomers)))
    patterns := mem.customerPatterns.filter (fun pat =>
      pyIn (pyLower customerName) (pyLower pat.customer)) }

end SupportMemory

namespace SupportMemory

/-! ## Shared lemmas about the bounded-retention slice -/

theorem pyTailSlice_length (n : Nat) (l : List α) :
    (pyTailSlice n l).length = min n l.length := by
  simp [pyTailSlice]
  omega

theorem pyTailSlice_append (n : Nat) (l b : List α) :
    pyTailSlice n (pyTailSlice n l ++ b) = pyTailSlice n (l ++ b) := by
  unfold pyTailSlice
  rw [← List.drop_append_of_le_length (Nat.sub_le l.length n)]
  rw [List.drop_drop]
  congr 1
  simp
  omega

theorem getLast?_drop_of_lt (l : List α) (k : Nat) (h : k < l.length) :
    (l.drop k).getLast? = l.getLast? := by
  induction l generalizing k with
  | nil => simp at h
  | cons a t ih =>
    cases k with
    | zero => rfl
    | succ j =>
      have hj : j < t.length := by simpa using h
      have ht : t ≠ [] := by
        cases t with
        | nil => simp at hj
        | cons b u => simp
      rw [List.drop_succ_cons, ih j hj]
      cases t with
      | nil => simp at hj
      | cons b u => rw [List.getLast?_cons_cons]

theorem getLast?_pyTailSlice (n : Nat) (l : List α) (hn : 1 ≤ n) :
    (pyTailSlice n l).getLast? = l.getLast? := by
  cases l with
  | nil => simp [pyTailSlice]
  | cons a t =>
    apply getLast?_drop_of_lt
    simp
    omega

theorem foldl_tailSlice_append (n : Nat) (x : List α) (xs : List (List α))
    (init : List α) :
    (x :: xs).foldl (fun l b => pyTailSlice n (l ++ b)) init
      = pyTailSlice n (init ++ (x :: xs).flatten) := by
  induction xs generalizing init x with
  | nil => simp
  | cons y ys ih =>
    rw [List.foldl_cons]
    rw [ih]
    rw [pyTailSlice_append]
    simp

theorem foldl_tailSlice_single (n : Nat) (x : α) (xs : List α) (init : List α) :
    (x :: xs).foldl (fun l b => pyTailSlice n (l ++ [b])) init
      = pyTailSlice n (init ++ x :: xs) := by
  induction xs generalizing init x with
  | nil => simp
  | cons y ys ih =>
    rw [List.foldl_cons]
    rw [ih]
    rw [pyTailSlice_append]
    simp

end SupportMemory

namespace SupportMemory

set_option maxRecDepth 10000

/-- C3: after every write to a bounded memory list the stored length is
at most the configured maximum (50 for meetings and captures, 100 for
observations and inbox), the retained elements are exactly the trailing
slice of everything ever appended, in order (oldest-first eviction), and
the most recently appended element is never dropped. -/
theorem bounded_store_retention :
    (∀ (init : List MeetingRecord) (x : MeetingRecord) (xs : List MeetingRecord),
      ((x :: xs).foldl meetingsWrite init).length ≤ 50
      ∧ (x :: xs).foldl meetingsWrite init = pyTailSlice 50 (init ++ x :: xs)
      ∧ ((x :: xs).foldl meetingsWrite init).getLast? = (init ++ x :: xs).getLast?)
    ∧ (∀ (init : List Capture) (x : Capture) (xs : List Capture),
      ((x :: xs).foldl capturesWrite init).length ≤ 50
      ∧ (x :: xs).foldl capturesWrite init = pyTailSlice 50 (init ++ x :: xs)
      ∧ ((x :: xs).foldl capturesWrite init).getLast? = (init ++ x :: xs).getLast?)
    ∧ (∀ (init : List Observation) (x : Observation) (xs : List Observation),
      ((x :: xs).foldl observationsWrite init).length ≤ 100
      ∧ (x :: xs).foldl observationsWrite init = pyTailSlice 100 (init ++ x :: xs)
      ∧ ((x :: xs).foldl observationsWrite init).getLast? = (init ++ x :: xs).getLast?)
    ∧ (∀ (init : List InboxItem) (b : List InboxItem) (bs : List (List InboxItem)),
      ((b :: bs).foldl inboxWrite init).length ≤ 100
      ∧ (b :: bs).foldl inboxWrite init = pyTailSlice 100 (init ++ (b :: bs).flatten)
      ∧ ((b :: bs).foldl inboxWrite init).getLast? = (init ++ (b :: bs).flatten).getLast?) := by
  refine ⟨?_, ?_, ?_, ?_⟩
  · intro init x xs
    have he : (x :: xs).foldl meetingsWrite init
        = pyTailSlice 50 (init ++ x :: xs) := by
      have : meetingsWrite = fun l b => pyTailSlice 50 (l ++ [b]) := rfl
      rw [this, foldl_tailSlice_single]
    refine ⟨?_, he, ?_⟩
    · rw [he, pyTailSlice_length]; omega
    · rw [he, getLast?_pyTailSlice 50 _ (by omega)]
  · intro init x xs
    have he : (x :: xs).foldl capturesWrite init
        = pyTailSlice 50 (init ++ x :: xs) := by
      have : capturesWrite = fun l b => pyTailSlice 50 (l ++ [b]) := rfl
      rw [this, foldl_tailSlice_single]
    refine ⟨?_, he, ?_⟩
    · rw [he, pyTailSlice_length]; omega
    · rw [he, getLast?_pyTailSlice 50 _ (by omega)]
  · intro init x xs
    have he : (x :: xs).foldl observationsWrite init
        = pyTailSlice 100 (init ++ x :: xs) := by
      have : observationsWrite = fun l b => pyTailSlice 100 (l ++ [b]) := rfl
      rw [this, foldl_tailSlice_single]
    refine ⟨?_, he, ?_⟩
    · rw [he, pyTailSlice_length]; omega
    · rw [he, getLast?_pyTailSlice 100 _ (by omega)]
  · intro init b bs
    have he : (b :: bs).foldl inboxWrite init
        = pyTailSlice 100 (init ++ (b :: bs).flatten) := by
      have : inboxWrite = fun l bb => pyTailSlice 100 (l ++ bb) := rfl
      rw [this, foldl_tailSlice_append]
    refine ⟨?_, he, ?_⟩
    · rw [he, pyTailSlice_length]; omega
    · rw [he, getLast?_pyTailSlice 100 _ (by omega)]

/-! ## Concrete fixtures used by the claim theorems -/

/-- An empty memory document. -/
def emptyMem : Mem := ⟨[], [], [], []⟩

/-- The meeting of the spec example: a single vendor action item whose
assignee name is "Lucas Willett". -/
def contractMeeting : MeetingData :=
  ⟨some "Q1 Sync", .dstr "", .dstr "",
    [.fobj (some "Send the contract") none none (some ⟨some "Lucas Willett", none⟩)],
    [], 0, some "m1"⟩

/-- C6: processing a meeting whose `action_items` are
`[{"text": "Send the contract", "assignee": {"name": "Lucas Willett"}}]`
puts "Send the contract" into the record's follow-ups and issues exactly
one `create_task` call with that text as the title. -/
theorem contract_meeting_single_task :
    "Send the contract" ∈ (process_meeting contractMeeting emptyMem (fun _ => false)
        "2026-10-12" "09:00").record.signals.followUps
    ∧ (process_meeting contractMeeting emptyMem (fun _ => false)
        "2026-10-12" "09:00").taskCalls.length = 1
    ∧ (process_meeting contractMeeting emptyMem (fun _ => false)
        "2026-10-12" "09:00").taskCalls.map (fun c => c.title)
      = ["Send the contract"] := by
  decide

/-- The capture block of the spec example. -/
def exampleCaptureBlock : String :=
  "- Call Mike about Q1\n- Idea: automate weekly report\n- Review PR by Friday"

/-- C7: classifying the example capture block yields exactly three items
typed task, idea and task, and the third line does match the
deadline-phrase task pattern on "by Friday". -/
theorem capture_classification_example :
    (parse_capture exampleCaptureBlock).map (fun i => i.ctype)
      = [CapType.task, CapType.idea, CapType.task]
    ∧ (parse_capture exampleCaptureBlock).length = 3
    ∧ (research (captureTaskPats.getD 1 RE.eps) (pyLower "Review PR by Friday")).isSome
      = true := by
  decide

end SupportMemory

namespace SupportMemory

set_option maxRecDepth 10000

/-! ## Lemmas about the create_task attempt loop -/

theorem attemptCalls_all_ok (fails : Nat → Bool) (h : ∀ i, fails i = false) :
    ∀ (k : Nat) (cs : List TaskCall), attemptCalls fails k cs = cs := by
  intro k cs
  induction cs generalizing k with
  | nil => rfl
  | cons c rest ih =>
    unfold attemptCalls
    rw [h k]
    simp [ih]

theorem attemptCalls_take (fails : Nat → Bool) (i : Nat) (hi : fails i = true)
    (hj : ∀ j, j < i → fails j = false) :
    ∀ (k : Nat) (cs : List TaskCall), k ≤ i →
      attemptCalls fails k cs = cs.take (i + 1 - k) := by
  intro k cs
  induction cs generalizing k with
  | nil => intro _; simp [attemptCalls]
  | cons c rest ih =>
    intro hk
    unfold attemptCalls
    by_cases hke : k = i
    · subst hke
      rw [hi]
      have h1 : k + 1 - k = 1 := by omega
      rw [h1]
      simp
    · have hklt : k < i := Nat.lt_of_le_of_ne hk hke
      rw [hj k hklt]
      simp only [Bool.false_eq_true, if_false]
      rw [ih (k + 1) hklt]
      have : i + 1 - k = (i + 1 - (k + 1)) + 1 := by omega
      rw [this]
      rfl

/-- The meeting used for the task-failure claims: two vendor-supplied
plain-string items, hence two surfaced follow-ups. -/
def twoItemMeeting : MeetingData :=
  ⟨some "Sync", .dstr "", .dstr "",
    [.fstr "Email the revised quote", .fstr "Update the onboarding doc"],
    [], 0, none⟩

/-- C5 counterexample: with two follow-ups surfaced and the first
`create_task` call failing, only one call is attempted — the single
`try` around the whole loop stops the remaining calls, contrary to the
claim that they are still attempted. -/
theorem task_failure_stops_rest :
    (intendedTaskCalls (process_meeting twoItemMeeting emptyMem (fun i => i == 0)
        "2026-10-12" "09:00").record.signals "Sync" "2026-10-12").length = 2
    ∧ (process_meeting twoItemMeeting emptyMem (fun i => i == 0)
        "2026-10-12" "09:00").taskCalls.length = 1 := by
  decide

/-- C5 amended: a `create_task` failure abandons the remaining calls of
that meeting (the attempted calls are the intended ones up to and
including the first failure), but the saved memory and the returned
record — the meeting record last in the stored list, signals intact —
do not depend on task-creation outcomes at all. -/
theorem task_failure_still_persists (md : MeetingData) (mem : Mem)
    (nd nt : String) (fails fails2 : Nat → Bool) :
    (process_meeting md mem fails nd nt).mem = (process_meeting md mem fails2 nd nt).mem
    ∧ (process_meeting md mem fails nd nt).record
        = (process_meeting md mem fails2 nd nt).record
    ∧ (process_meeting md mem fails nd nt).mem.meetings.getLast?
        = some (process_meeting md mem fails nd nt).record
    ∧ ((∀ i, fails i = false) →
        (process_meeting md mem fails nd nt).taskCalls
          = intendedTaskCalls (process_meeting md mem fails nd nt).record.signals
              (md.title.getD "Untitled Meeting") nd)
    ∧ (∀ i, fails i = true → (∀ j, j < i → fails j = false) →
        (process_meeting md mem fails nd nt).taskCalls
          = (intendedTaskCalls (process_meeting md mem fails nd nt).record.signals
              (md.title.getD "Untitled Meeting") nd).take (i + 1)) := by
  refine ⟨rfl, rfl, ?_, ?_, ?_⟩
  · show (meetingsWrite mem.meetings _).getLast? = _
    unfold meetingsWrite
    rw [getLast?_pyTailSlice 50 _ (by omega)]
    rw [List.getLast?_append]
    rfl
  · intro h
    exact attemptCalls_all_ok fails h 0 _
  · intro i hi hj
    have h := attemptCalls_take fails i hi hj 0
      (intendedTaskCalls (process_meeting md mem fails nd nt).record.signals
        (md.title.getD "Untitled Meeting") nd) (Nat.zero_le i)
    simpa using h

/-- C5 witness: the amended theorem applied to the concrete two-item
meeting with the first call failing. -/
theorem task_failure_still_persists_witness :
    (process_meeting twoItemMeeting emptyMem (fun i => i == 0)
        "2026-10-12" "09:00").taskCalls
      = (intendedTaskCalls (process_meeting twoItemMeeting emptyMem (fun i => i == 0)
            "2026-10-12" "09:00").record.signals
          (twoItemMeeting.title.getD "Untitled Meeting") "2026-10-12").take 1 :=
  (task_failure_still_persists twoItemMeeting emptyMem "2026-10-12" "09:00"
      (fun i => i == 0) (fun _ => false)).2.2.2.2 0 (by decide)
    (fun j hj => absurd hj (by omega))

end SupportMemory

namespace SupportMemory

set_option maxRecDepth 10000

/-- The meeting used for the no-assignee claim: one object item with a
clean text and no assignee metadata. -/
def noAssigneeMeeting : MeetingData :=
  ⟨some "Sync", .dstr "", .dstr "",
    [.fobj (some "Send the quarterly report") none none none], [], 0, none⟩

/-- C4 counterexample: an external object item with no assignee field
and no noise markers is NOT merged into follow-ups — `process_meeting`
sets `is_mine = False` for objects without assignee metadata and skips
them, contrary to the claim that no-assignee items are included. -/
theorem no_assignee_object_excluded :
    pyIn "\x7b" "Send the quarterly report" = false
    ∧ pyIn "speaker" (pyLower "Send the quarterly report") = false
    ∧ (process_meeting noAssigneeMeeting emptyMem (fun _ => false)
        "2026-10-12" "09:00").record.signals.followUps = [] := by
  decide

/-- C4 amended: only a no-assignee item that arrives as a PLAIN STRING
longer than 10 characters (and under 500, with no noise markers) is
included in follow-ups; an object item without assignee metadata is
always excluded, whatever its text.  The record's follow-ups are exactly
the per-item results over the vendor list. -/
theorem fathom_no_assignee_rule :
    (∀ t c d : Option String, fathomItemText (.fobj t c d none) = none)
    ∧ (∀ s : String, 10 < s.length → s.length < 500 →
        pyIn "\x7b" s = false → pyIn "speaker" (pyLower s) = false →
        fathomItemText (.fstr s) = some (pyStrip s))
    ∧ (∀ (md : MeetingData) (mem : Mem) (fails : Nat → Bool) (nd nt : String),
        (process_meeting md mem fails nd nt).record.signals.followUps
          = md.actionItems.filterMap fathomItemText) := by
  refine ⟨?_, ?_, ?_⟩
  · intro t c d
    unfold fathomItemText
    cases h : pyOrChain [t, c, d] <;> simp [h]
  · intro s h10 h500 hbrace hspeaker
    simp [fathomItemText, h10, h500, hbrace, hspeaker]
  · intro md mem fails nd nt
    rfl

/-- C4 witness: the amended rule evaluated at the concrete object item
without assignee and at a concrete clean plain-string item. -/
theorem fathom_no_assignee_rule_witness :
    fathomItemText (.fobj (some "Send the quarterly report") none none none) = none
    ∧ fathomItemText (.fstr "Email the revised quote")
        = some (pyStrip "Email the revised quote") :=
  ⟨fathom_no_assignee_rule.1 (some "Send the quarterly report") none none,
    fathom_no_assignee_rule.2.1 "Email the revised quote" (by decide) (by decide)
      (by decide) (by decide)⟩

end SupportMemory

namespace SupportMemory

set_option maxRecDepth 10000

/-! ## C9 — the wellness persistence filter -/

/-- C9: a roster member's wellness result is persisted (a
`log_team_update` call is emitted) only when it is non-neutral or
carries at least one blocker; a member all of whose results are neutral
with no blockers is never logged; and meeting processing emits exactly
the calls of this filter over the extracted team signals. -/
theorem wellness_persisted_only_when_flagged :
    (∀ (ts : List (String × PersonSignals)) (title : String),
      ∀ c ∈ log_team_wellness_from_meeting ts title,
        ∃ s, (c.person, s) ∈ ts
          ∧ (s.sentiment ≠ Sentiment.neutral ∨ s.blockers ≠ []))
    ∧ (∀ (ts : List (String × PersonSignals)) (title : String) (p : String),
        (∀ s, (p, s) ∈ ts → s.sentiment = Sentiment.neutral ∧ s.blockers = []) →
        ∀ c ∈ log_team_wellness_from_meeting ts title, c.person ≠ p)
    ∧ (∀ (md : MeetingData) (mem : Mem) (fails : Nat → Bool) (nd nt : String),
        (process_meeting md mem fails nd nt).wellnessLogs
          = log_team_wellness_from_meeting
              (extract_team_wellness (normalizeTranscript md.transcript) md.attendees)
              (md.title.getD "Untitled Meeting")) := by
  have key : ∀ (ts : List (String × PersonSignals)) (title : String),
      ∀ c ∈ log_team_wellness_from_meeting ts title,
        ∃ s, (c.person, s) ∈ ts
          ∧ (s.sentiment ≠ Sentiment.neutral ∨ s.blockers ≠ []) := by
    intro ts title c hc
    simp only [log_team_wellness_from_meeting, List.mem_filterMap] at hc
    obtain ⟨pr, hpr, hf⟩ := hc
    by_cases hcond : pr.2.sentiment ≠ Sentiment.neutral ∨ pr.2.blockers ≠ []
    · rw [if_pos hcond] at hf
      have hce := Option.some.inj hf
      refine ⟨pr.2, ?_, hcond⟩
      have hcp : c.person = pr.1 := by rw [← hce]
      rw [hcp]
      simpa using hpr
    · rw [if_neg hcond] at hf
      exact absurd hf (by simp)
  refine ⟨key, ?_, ?_⟩
  · intro ts title p hall c hc heq
    obtain ⟨s, hmem, hqual⟩ := key ts title c hc
    rw [heq] at hmem
    obtain ⟨h1, h2⟩ := hall s hmem
    rcases hqual with h | h
    · exact h h1
    · exact h h2
  · intro md mem fails nd nt
    show (if (extract_team_wellness (normalizeTranscript md.transcript)
          md.attendees).isEmpty then [] else _) = _
    cases h : extract_team_wellness (normalizeTranscript md.transcript) md.attendees with
    | nil => simp [log_team_wellness_from_meeting]
    | cons a t => simp

/-- C9 witness: the filter applied to a concrete stressed entry — the
emitted call for "christian" corresponds to a non-neutral result. -/
theorem wellness_persisted_only_when_flagged_witness :
    ∃ s, ((⟨"christian", "meeting",
          "From: Standup | Seemed stressed (3 stress signals)", 2⟩ : LogCall).person, s)
        ∈ [("christian", (⟨["swamped", "worried", "buried"], [], [],
            Sentiment.stressed⟩ : PersonSignals))]
      ∧ (s.sentiment ≠ Sentiment.neutral ∨ s.blockers ≠ []) :=
  wellness_persisted_only_when_flagged.1
    [("christian", ⟨["swamped", "worried", "buried"], [], [], Sentiment.stressed⟩)]
    "Standup" _ (by decide)

/-! ## C10 — empty captures cause no side effects -/

/-- C10: when every split line of a capture text is (after stripping)
empty, shorter than 3 characters, or a verbatim trigger line, the
classifier yields no items and `process_capture` returns the explanatory
message, leaves the memory store unchanged, and issues no `create_task`
calls. -/
theorem empty_capture_no_side_effects :
    ∀ (text user : String) (mem : Mem) (ok : Nat → Option String)
      (nowIso nowDate : String),
      (∀ line ∈ splitCapture text,
        pyStrip line = "" ∨ (pyStrip line).length < 3
          ∨ pyLower (pyStrip line) ∈ captureTriggers) →
      process_capture text user mem ok nowIso nowDate
        = ⟨"Couldn\x27t parse any items from that. Try bullet points or one item per line.",
            mem, []⟩ := by
  intro text user mem ok nowIso nowDate h
  have hi : parse_capture text = [] := by
    rw [parse_capture]
    rw [List.filterMap_eq_nil_iff]
    intro line hline
    unfold captureLineItem
    by_cases hc : pyStrip line = "" ∨ (pyStrip line).length < 3
    · rw [if_pos hc]
    · rcases h line hline with h1 | h2 | h3
      · exact absurd (Or.inl h1) hc
      · exact absurd (Or.inr h2) hc
      · rw [if_neg hc, if_pos h3]
  unfold process_capture
  rw [hi]
  rfl

/-- C10 witness: a capture consisting of only a trigger line and a
two-character line produces the message and no effects. -/
theorem empty_capture_no_side_effects_witness :
    process_capture "capture:\nab" "U1" emptyMem (fun _ => none) "iso" "2026-10-12"
      = ⟨"Couldn\x27t parse any items from that. Try bullet points or one item per line.",
          emptyMem, []⟩ :=
  empty_capture_no_side_effects "capture:\nab" "U1" emptyMem (fun _ => none)
    "iso" "2026-10-12" (by decide)

end SupportMemory

namespace SupportMemory

set_option maxRecDepth 10000

/-! ## C8 — customer context lookup -/

theorem find?_first_match {α : Type} (p : α → Bool) (l : List α) (a : α)
    (h : l.find? p = some a) :
    ∃ l1 l2, l = l1 ++ a :: l2 ∧ p a = true ∧ ∀ x ∈ l1, p x = false := by
  induction l with
  | nil => simp at h
  | cons b t ih =>
    rw [List.find?_cons] at h
    cases hpb : p b with
    | true =>
      rw [hpb] at h
      simp at h
      subst h
      exact ⟨[], t, by simp, hpb, by simp⟩
    | false =>
      rw [hpb] at h
      simp at h
      obtain ⟨l1, l2, rfl, hpa, hl1⟩ := ih h
      refine ⟨b :: l1, l2, by simp, hpa, ?_⟩
      intro x hx
      rcases List.mem_cons.mp hx with rfl | hx2
      · exact hpb
      · exact hl1 x hx2

/-- C8: `get_customer_context` matches by case-insensitive substring (the
result depends only on the lower-cased fragment, and e.g. "acme" matches
an entity named "Acme Corp"); it returns the FIRST matching entity —
every earlier entity does not match — but ALL matching incidents (tested
against the rendering of `affected_customers`) and ALL matching
patterns. -/
theorem customer_context_lookup :
    (∀ (name : String) (mem : MemCtx) (ent : EntStore) (inc : Incident),
      inc ∈ (get_customer_context name mem ent).incidents
        ↔ inc ∈ mem.incidents
          ∧ pyIn (pyLower name) (pyLower (pyReprStrList inc.affectedCustomers)) = true)
    ∧ (∀ (name : String) (mem : MemCtx) (ent : EntStore) (pat : CustomerPattern),
        pat ∈ (get_customer_context name mem ent).patterns
          ↔ pat ∈ mem.customerPatterns ∧ pyIn (pyLower name) (pyLower pat.customer) = true)
    ∧ (∀ (name name2 : String) (mem : MemCtx) (ent : EntStore),
        pyLower name2 = pyLower name →
        get_customer_context name2 mem ent = get_customer_context name mem ent)
    ∧ (∀ (name : String) (mem : MemCtx) (ent : EntStore),
        (get_customer_context name mem ent).entity = none
          ↔ ∀ pr ∈ ent.customers, pyIn (pyLower name) (pyLower pr.2.name) = false)
    ∧ (∀ (name : String) (mem : MemCtx) (ent : EntStore) (e : Customer),
        (get_customer_context name mem ent).entity = some e →
        ∃ pre post cid, ent.customers = pre ++ (cid, e) :: post
          ∧ pyIn (pyLower name) (pyLower e.name) = true
          ∧ ∀ pr ∈ pre, pyIn (pyLower name) (pyLower pr.2.name) = false)
    ∧ (get_customer_context "acme" ⟨[], []⟩
        ⟨[("acme_corp", ⟨"Acme Corp"⟩)]⟩).entity = some ⟨"Acme Corp"⟩ := by
  refine ⟨?_, ?_, ?_, ?_, ?_, by decide⟩
  · intro name mem ent inc
    simp [get_customer_context, List.mem_filter]
  · intro name mem ent pat
    simp [get_customer_context, List.mem_filter]
  · intro name name2 mem ent h
    simp only [get_customer_context, h]
  · intro name mem ent
    simp [get_customer_context, List.find?_eq_none]
  · intro name mem ent e h
    simp only [get_customer_context, Option.map_eq_some'] at h
    obtain ⟨pr, hfind, hpr2⟩ := h
    obtain ⟨pre, post, hsplit, hpa, hpre⟩ := find?_first_match _ _ _ hfind
    refine ⟨pre, post, pr.1, ?_, ?_, hpre⟩
    · rw [hsplit]
      rw [show ((pr.1, e) : String × Customer) = pr by rw [← hpr2]]
    · rw [← hpr2]
      exact hpa

/-- C8 witness: the first-match decomposition applied to the concrete
"acme" lookup against an entity list containing "Acme Corp". -/
theorem customer_context_lookup_witness :
    ∃ pre post cid,
      ([("acme_corp", (⟨"Acme Corp"⟩ : Customer))] : List (String × Customer))
        = pre ++ (cid, (⟨"Acme Corp"⟩ : Customer)) :: post
      ∧ pyIn (pyLower "acme") (pyLower (Customer.mk "Acme Corp").name) = true
      ∧ ∀ pr ∈ pre, pyIn (pyLower "acme") (pyLower pr.2.name) = false :=
  customer_context_lookup.2.2.2.2.1 "acme" ⟨[], []⟩
    ⟨[("acme_corp", ⟨"Acme Corp"⟩)]⟩ ⟨"Acme Corp"⟩ (by decide)

end SupportMemory

namespace SupportMemory

set_option maxRecDepth 10000

/-! ## C1 — the shape of extract_signals output -/

theorem catSignals_strlen (pats : List RE) (text : String) (x : String)
    (hx : x ∈ catSignals pats text) : ¬ x = "" ∧ 5 < x.length := by
  unfold catSignals at hx
  obtain ⟨p, _, hx⟩ := List.mem_flatMap.mp hx
  obtain ⟨m, _, hf⟩ := List.mem_filterMap.mp hx
  cases hmg : matchGrp text m 1 with
  | none =>
    simp only [hmg] at hf
    exact absurd hf (by simp)
  | some raw =>
    simp only [hmg] at hf
    by_cases hc : ¬ pyStrip raw = "" ∧ 5 < (pyStrip raw).length
    · rw [if_pos hc] at hf
      have := Option.some.inj hf
      rw [← this]
      exact hc
    · rw [if_neg hc] at hf
      exact absurd hf (by simp)

/-- C1 counterexample: the deadline loop of `extract_signals` has no
minimum-length threshold — on the text "by eod." the returned deadlines
sequence contains the three-character string "eod", refuting the claim
that every returned string is at least 5 characters long. -/
theorem deadline_below_min_length :
    "eod" ∈ (extract_signals (some "by eod.") []).deadlines
    ∧ ("eod" : String).length < 5 := by
  decide

/-- C1 amended: for every input (None and every string, with non-string
shapes entering through their `str()` rendering) `extract_signals`
returns the fixed eight-sequence structure (six action-related
sequences and two mention sequences) without raising; every string in
the five length-filtered categories (actions, decisions, commitments,
follow-ups, blockers) is LONGER than 5 characters; the deadline and
mention sequences carry no length guarantee; and every sequence is
deduplicated. -/
theorem extract_signals_shape :
    ∀ (transcript : Option String) (known : List String),
      (∀ x ∈ (extract_signals transcript known).actionsForMe, 5 < x.length)
      ∧ (∀ x ∈ (extract_signals transcript known).decisions, 5 < x.length)
      ∧ (∀ x ∈ (extract_signals transcript known).commitments, 5 < x.length)
      ∧ (∀ x ∈ (extract_signals transcript known).followUps, 5 < x.length)
      ∧ (∀ x ∈ (extract_signals transcript known).blockers, 5 < x.length)
      ∧ (extract_signals transcript known).actionsForMe.Nodup
      ∧ (extract_signals transcript known).decisions.Nodup
      ∧ (extract_signals transcript known).commitments.Nodup
      ∧ (extract_signals transcript known).followUps.Nodup
      ∧ (extract_signals transcript known).deadlines.Nodup
      ∧ (extract_signals transcript known).blockers.Nodup
      ∧ (extract_signals transcript known).customersMentioned.Nodup
      ∧ (extract_signals transcript known).projectsMentioned.Nodup := by
  intro transcript known
  cases transcript with
  | none => simp [extract_signals, emptySignals]
  | some t =>
    by_cases ht : t = ""
    · simp [extract_signals, ht, emptySignals]
    · simp only [extract_signals, if_neg ht]
      refine ⟨?_, ?_, ?_, ?_, ?_, ?_, ?_, ?_, ?_, ?_, ?_, ?_, ?_⟩
      · intro x hx
        exact (catSignals_strlen _ _ x (List.mem_dedup.mp hx)).2
      · intro x hx
        exact (catSignals_strlen _ _ x (List.mem_dedup.mp hx)).2
      · intro x hx
        exact (catSignals_strlen _ _ x (List.mem_dedup.mp hx)).2
      · intro x hx
        exact (catSignals_strlen _ _ x (List.mem_dedup.mp hx)).2
      · intro x hx
        exact (catSignals_strlen _ _ x (List.mem_dedup.mp hx)).2
      · exact List.nodup_dedup _
      · exact List.nodup_dedup _
      · exact List.nodup_dedup _
      · exact List.nodup_dedup _
      · exact List.nodup_dedup _
      · exact List.nodup_dedup _
      · exact List.nodup_dedup _
      · exact List.nodup_dedup _

/-- C1 witness: the length bound applied to the concrete commitment
extracted from "let me check the numbers.". -/
theorem extract_signals_shape_witness :
    5 < ("check the numbers" : String).length
    ∧ "check the numbers"
      ∈ (extract_signals (some "let me check the numbers.") []).commitments :=
  ⟨(extract_signals_shape (some "let me check the numbers.") []).2.2.1
      "check the numbers" (by decide),
    by decide⟩

/-! ## C2 — the weekday-plus-day date rule falls through -/

/-- C2 counterexample: on "wednesday the 31" with reference date
2026-10-12 (a Monday), the weekday-plus-day phrase matches but no date
in the 60-day window has both that weekday and day-of-month — yet date
resolution does NOT return none: it falls back to the bare day-number
rule and resolves to 2026-10-31. -/
theorem weekday_day_unmatched_still_resolves :
    (research reWeekdayThe "wednesday the 31").isSome = true
    ∧ (∀ i ∈ List.range 60,
        ¬ ((addDays ⟨2026, 10, 12⟩ i).day = 31
          ∧ pyWeekday (addDays ⟨2026, 10, 12⟩ i) = weekdayNames.indexOf "wednesday"))
    ∧ extractDate "wednesday the 31" ⟨2026, 10, 12⟩
        = some ⟨"2026-10-31", "the 31"⟩ := by
  decide

/-- C2 amended: when the "<weekday> the <day>" phrase matches but the
60-day scan finds no date with both that weekday and day-of-month, the
rule itself yields nothing, and `_extract_date` falls through to the
remaining rules (bare day-number, bare weekday, relative phrases) on the
same text — the overall resolution equals the fallback resolution rather
than none. -/
theorem weekday_day_scan_fallback :
    ∀ (text : String) (today : Date) (m : RMatch),
      research reWeekdayThe text = some m →
      findDateWithDay (pyToNat ((matchGrp text m 2).getD ""))
        ((matchGrp text m 1).getD "") today = none →
      extractDate text today = extractDateRest text today := by
  intro text today m h1 h2
  simp [extractDate, h1, h2]

/-- C2 witness: the fall-through equation evaluated on the concrete
counterexample text and reference date. -/
theorem weekday_day_scan_fallback_witness :
    extractDate "wednesday the 31" ⟨2026, 10, 12⟩
      = extractDateRest "wednesday the 31" ⟨2026, 10, 12⟩ :=
  weekday_day_scan_fallback "wednesday the 31" ⟨2026, 10, 12⟩
    ⟨0, 16, [(1, 0, 9), (2, 14, 16)]⟩ (by decide) (by decide)

end SupportMemory
